import Mathlib

/-!
# Verification of the multi-species cellular-automata engine

Shallow embedding, in Lean 4, of the core of the `gameoflife_advanced`
repository: the rule/genome codec (`rules.py`, `rule_discovery.py`), the
lattice grids and their step operation (`square_grid.py`,
`hexagon_grid_numpy.py`, `triangle_grid_numpy.py`), the headless experiment
runners (`experiments/runner.py`), the criticality scorer
(`analysis/criticality_score.py`) and the interactive rule-application path
(`game.py`).

Modelling conventions:
* NumPy arrays become functions `ℕ → ℕ` over flat row-major cell indices
  (index `i = r * width + c`), paired with explicit `width`/`height` fields.
* Python floats are modelled by `ℚ` where the code only does field
  arithmetic and comparisons, and by `ℝ` where `np.std` (a square root)
  is involved.
* Randomness (`random.choice`, `np.random.choice`) is modelled by explicit
  oracle arguments: a chosen-index list for seeding, and a function
  `ℕ → ℕ` whose value at a cell selects (mod the candidate-list length)
  which birth candidate `random.choice` returned at that cell.
-/

namespace GameOfLife

/-- Embeds `rules.py` `Rule`: a pair of neighbour-count sets.
Python `set[int]` becomes `Finset ℕ` (rule values in the program are
non-negative neighbour counts). -/
structure Rule where
  birth : Finset ℕ
  survive : Finset ℕ
deriving DecidableEq

/-- Embeds `rule_discovery.py::rule_to_gene`: builds the length `2*(N+1)`
bit-string `gene`, initialised to `'0'`, then sets `gene[b] = '1'` for every
`b ∈ rule.birth` with `0 ≤ b ≤ N` and `gene[s + N + 1] = '1'` for every
`s ∈ rule.survive` with `0 ≤ s ≤ N`.  Written per-position: position
`i ≤ N` holds `'1'` iff `i ∈ birth`, position `i > N` (so `N+1 ≤ i ≤ 2N+1`
within the range) holds `'1'` iff `i - (N+1) ∈ survive`. -/
def rule_to_gene (rule : Rule) (N : ℕ) : List Char :=
  (List.range (2 * (N + 1))).map (fun i =>
    if i ≤ N then (if i ∈ rule.birth then '1' else '0')
    else (if i - (N + 1) ∈ rule.survive then '1' else '0'))

/-- Embeds `rule_discovery.py::gene_to_rule`:
`birth = {i for i, bit in enumerate(gene[: N + 1]) if bit == '1'}` and
`survival = {i for i, bit in enumerate(gene[N + 1 :]) if bit == '1'}`,
i.e. the sets of indices of `'1'` entries of the two halves. -/
def gene_to_rule (gene : List Char) (N : ℕ) : Rule where
  birth := (Finset.range (gene.take (N + 1)).length).filter
    (fun i => (gene.take (N + 1)).getD i '0' = '1')
  survive := (Finset.range (gene.drop (N + 1)).length).filter
    (fun i => (gene.drop (N + 1)).getD i '0' = '1')

/-- Embeds `lifeform.py` `Lifeform`: a species id together with its
birth/survival rule lists (the colour fields are rendering-only and
omitted). -/
structure Lifeform where
  id : ℕ
  birth_rules : List ℕ
  survival_rules : List ℕ
deriving DecidableEq

instance : Inhabited Lifeform := ⟨⟨0, [], []⟩⟩

/-- Embeds the mutable state shared by `SquareGrid`, `HexagonGridNumpy` and
`TriangleGridNumpy`: the flat row-major species-id array `grid`, the
lifespan array `grid_lifespans`, the generation counter and the lifeform
list.  Cell `(r, c)` lives at flat index `r * width + c`; rendering-only
fields (`cell_size`, offsets, ...) are omitted. -/
structure GridState where
  width : ℕ
  height : ℕ
  cells : ℕ → ℕ
  lifespans : ℕ → ℕ
  generation : ℕ
  lifeforms : List Lifeform

/-- Total number of cells (`self.grid.size`). -/
def GridState.size (g : GridState) : ℕ := g.width * g.height

/-- Toroidal wraparound of a (row, column) pair to a flat index
(`nr %= grid_height; nc %= grid_width; nr * grid_width + nc`). -/
def wrapIndex (w h : ℕ) (r c : ℤ) : ℕ :=
  (r.emod h).toNat * w + (c.emod w).toNat

/-- The eight Moore-neighbourhood offsets of the `convolve2d` kernel in
`square_grid.py::update` (the 3×3 ones-kernel with centre 0). -/
def mooreOffsets : List (ℤ × ℤ) :=
  [(-1, -1), (-1, 0), (-1, 1), (0, -1), (0, 1), (1, -1), (1, 0), (1, 1)]

/-- Embeds the square grid's neighbour counting
(`convolve2d(self.grid == lifeform.id, kernel, mode='same',
boundary='wrap')`): the number of the eight toroidal Moore neighbours of
cell `i` currently owned by species `id`. -/
def squareNeighborCount (g : GridState) (id : ℕ) (i : ℕ) : ℕ :=
  (mooreOffsets.filter (fun p =>
    g.cells (wrapIndex g.width g.height ((i / g.width : ℕ) + p.1)
      ((i % g.width : ℕ) + p.2)) = id)).length

/-- Embeds the dense-gather neighbour lookup of
`hexagon_grid_numpy.py::update` / `triangle_grid_numpy.py::update`:
`neighbor_indices` rows hold flat indices padded with `-1`; the grid is
padded with one `0` slot, so a `-1` entry (and any other out-of-range
entry) reads the pad value `0`. -/
def denseNeighborVals (size : ℕ) (cells : ℕ → ℕ) (row : List ℤ) : List ℕ :=
  row.map (fun j => if 0 ≤ j ∧ j < (size : ℤ) then cells j.toNat else 0)

/-- Per-species neighbour count of the dense grids: the number of gathered
neighbour values equal to `id`
(`(neighbor_vals == lifeform.id).sum(axis=1)`). -/
def denseNeighborCount (size : ℕ) (cells : ℕ → ℕ) (nbr : ℕ → List ℤ)
    (id : ℕ) (i : ℕ) : ℕ :=
  ((denseNeighborVals size cells (nbr i)).filter (fun v => v = id)).length

/-- Embeds `hexagon_grid_numpy.py::_create_neighbor_map`'s odd-q offset
scheme: column parity selects one of two six-offset sets. -/
def hexOffsets (c : ℕ) : List (ℤ × ℤ) :=
  if c % 2 = 1 then [(-1, 0), (1, 0), (0, -1), (0, 1), (1, -1), (1, 1)]
  else [(-1, 0), (1, 0), (0, -1), (0, 1), (-1, -1), (-1, 1)]

/-- The raw neighbour list of hexagon cell `i` (before dense padding):
wrapped rows/columns when `wrap`, out-of-bounds neighbours dropped
otherwise. -/
def hexRowRaw (w h : ℕ) (wrap : Bool) (i : ℕ) : List ℤ :=
  (hexOffsets (i % w)).filterMap (fun p =>
    let r : ℤ := (i / w : ℕ); let c : ℤ := (i % w : ℕ)
    if wrap then some ((wrapIndex w h (r + p.1) (c + p.2) : ℕ) : ℤ)
    else if 0 ≤ r + p.1 ∧ r + p.1 < (h : ℤ) ∧ 0 ≤ c + p.2 ∧ c + p.2 < (w : ℤ)
    then some ((r + p.1).toNat * w + (c + p.2).toNat)
    else none)

/-- `max_degree`: the longest raw neighbour list over the grid
(`max((len(n) for n in neighbor_lists), default=0)`). -/
def hexMaxDegree (w h : ℕ) (wrap : Bool) : ℕ :=
  ((List.range (w * h)).map (fun i => (hexRowRaw w h wrap i).length)).foldr max 0

/-- The dense `neighbor_indices` row of hexagon cell `i`: the raw list
padded to `max_degree` with the sentinel `-1`. -/
def hexNeighborRow (w h : ℕ) (wrap : Bool) (i : ℕ) : List ℤ :=
  hexRowRaw w h wrap i ++
    List.replicate (hexMaxDegree w h wrap - (hexRowRaw w h wrap i).length) (-1)

/-- Birth candidates at cell `i`: the `potential_parents` list, i.e. the
lifeforms (in list order) whose own-species neighbour count at `i` is in
their birth rules. -/
def birthCandidates (lfs : List Lifeform) (count : ℕ → ℕ → ℕ) (i : ℕ) :
    List Lifeform :=
  lfs.filter (fun lf => count lf.id i ∈ lf.birth_rules)

/-- Embeds the `possible_births` array: each lifeform in turn writes its id
over the dead cells whose neighbour count is in its birth rules, so the
final entry is the id of the *last* matching lifeform (or `0`). -/
def possibleBirth (lfs : List Lifeform) (count : ℕ → ℕ → ℕ)
    (cells : ℕ → ℕ) (i : ℕ) : ℕ :=
  lfs.foldl (fun acc lf =>
    if cells i = 0 ∧ count lf.id i ∈ lf.birth_rules then lf.id else acc) 0

/-- The id `random.choice(potential_parents)` returned at cell `i`; the
oracle `choice` picks the list position modulo the candidate count. -/
def chosenParent (lfs : List Lifeform) (count : ℕ → ℕ → ℕ)
    (choice : ℕ → ℕ) (i : ℕ) : ℕ :=
  let cands := birthCandidates lfs count i
  (cands.getD (choice i % cands.length) default).id

/-- Cells array after the birth pass: birth locations (dead cells with
`possible_births > 0`) receive the chosen parent id, everything else keeps
its value from `self.grid.copy()`. -/
def birthPassCells (g : GridState) (count : ℕ → ℕ → ℕ) (choice : ℕ → ℕ) :
    ℕ → ℕ :=
  fun i => if 0 < possibleBirth g.lifeforms count g.cells i
    then chosenParent g.lifeforms count choice i else g.cells i

/-- Lifespan array after the birth pass: newborn cells get lifespan `1`. -/
def birthPassLifespans (g : GridState) (count : ℕ → ℕ → ℕ) : ℕ → ℕ :=
  fun i => if 0 < possibleBirth g.lifeforms count g.cells i
    then 1 else g.lifespans i

/-- One iteration of the survival/death loop for lifeform `lf`, acting on
the in-progress `(new_grid, new_lifespans)` pair `p`; masks are computed
from the *pre-step* grid `oldCells`:
surviving cells (`count ∈ survival_rules`) get `lifespan += 1`, dying cells
get species `0` and lifespan `0`. -/
def survivalDeathPass (oldCells : ℕ → ℕ) (count : ℕ → ℕ → ℕ)
    (p : (ℕ → ℕ) × (ℕ → ℕ)) (lf : Lifeform) : (ℕ → ℕ) × (ℕ → ℕ) :=
  (fun i => if oldCells i = lf.id ∧ ¬ count lf.id i ∈ lf.survival_rules
      then 0 else p.1 i,
   fun i => if oldCells i = lf.id
      then (if count lf.id i ∈ lf.survival_rules then p.2 i + 1 else 0)
      else p.2 i)

/-- The `(new_grid, new_lifespans)` pair after the birth pass followed by
the per-lifeform survival/death loop. -/
def stepArrays (g : GridState) (count : ℕ → ℕ → ℕ) (choice : ℕ → ℕ) :
    (ℕ → ℕ) × (ℕ → ℕ) :=
  g.lifeforms.foldl (survivalDeathPass g.cells count)
    (birthPassCells g count choice, birthPassLifespans g count)

/-- `max(lifeform.survival_rules)` if non-empty else `-1`
(the `max_survive` of the kill-attribution block). -/
def maxSurvive (lf : Lifeform) : ℤ :=
  match lf.survival_rules with
  | [] => -1
  | x :: xs => ((x :: xs).foldl max x : ℕ)

/-- The overcrowding-death mask at cell `i` for lifeform `lf`
(`death_overcrowd = (neighbor_count > max_survive) & death_mask`). -/
def overcrowdDeath (lf : Lifeform) (oldCells : ℕ → ℕ)
    (count : ℕ → ℕ → ℕ) (i : ℕ) : Prop :=
  oldCells i = lf.id ∧ ¬ count lf.id i ∈ lf.survival_rules ∧
    maxSurvive lf < (count lf.id i : ℤ)

instance (lf : Lifeform) (oldCells : ℕ → ℕ) (count : ℕ → ℕ → ℕ) (i : ℕ) :
    Decidable (overcrowdDeath lf oldCells count i) := by
  unfold overcrowdDeath; infer_instance

/-- `total_neighbors_all`: the summed neighbour occupancy over all species
(`stacked_counts.sum(axis=0)`). -/
def totalNeighborsAll (lfs : List Lifeform) (count : ℕ → ℕ → ℕ) (i : ℕ) :
    ℕ :=
  (lfs.map (fun lf => count lf.id i)).sum

/-- `np.argmax` helper: first index of the maximum, scanning with the best
index/value seen so far (a later element replaces the accumulator only when
strictly greater, matching NumPy's first-occurrence tie-break). -/
def argmaxAux (bi : ℕ) (bv : ℤ) (k : ℕ) : List ℤ → ℕ
  | [] => bi
  | v :: vs => if bv < v then argmaxAux k v (k + 1) vs else argmaxAux bi bv (k + 1) vs

/-- `np.argmax` over a list of integers (first index of the maximum;
`0` on the empty list). -/
def argmaxIdx : List ℤ → ℕ
  | [] => 0
  | v :: vs => argmaxAux 0 v 1 vs

/-- The `counts_at` column at cell `i` for a death of the lifeform at
position `lfIdx`: every species' neighbour count, with the dying species'
own row overwritten by `-1`. -/
def killerVals (lfs : List Lifeform) (count : ℕ → ℕ → ℕ) (lfIdx : ℕ)
    (i : ℕ) : List ℤ :=
  (List.range lfs.length).map (fun j =>
    if j = lfIdx then (-1 : ℤ) else (count (lfs.getD j default).id i : ℤ))

/-- Embeds the kill-attribution block of
`hexagon_grid_numpy.py::update` / `triangle_grid_numpy.py::update` for the
lifeform at position `lfIdx` and cell `i`: on an overcrowding death, take
`killer_idx = argmax` of the `-1`-masked counts column; if its value
strictly exceeds half the total neighbour occupancy (`killer_vals >
total_n / 2`, float division modelled in `ℚ`) and the argmax lifeform is
not the dying one, a kill is attributed to the argmax lifeform's id. -/
def killContribution (lfs : List Lifeform) (oldCells : ℕ → ℕ)
    (count : ℕ → ℕ → ℕ) (lfIdx : ℕ) (i : ℕ) : Option ℕ :=
  let lf := lfs.getD lfIdx default
  if overcrowdDeath lf oldCells count i then
    let vals := killerVals lfs count lfIdx i
    let k := argmaxIdx vals
    let killer := lfs.getD k default
    if ((vals.getD k 0 : ℚ) > (totalNeighborsAll lfs count i : ℚ) / 2) ∧
        killer.id ≠ lf.id
    then some killer.id else none
  else none

/-- Total kills attributed to species id `kid` during one step: the number
of (dying-lifeform position, cell) pairs whose attribution is `kid`. -/
def killCount (lfs : List Lifeform) (oldCells : ℕ → ℕ)
    (count : ℕ → ℕ → ℕ) (size : ℕ) (kid : ℕ) : ℕ :=
  ((List.range lfs.length).map (fun j =>
    (List.range size).countP
      (fun i => killContribution lfs oldCells count j i = some kid))).sum

/-- Embeds the step-result tuple.  `SquareGrid.update` returns the 6-tuple
`(births, deaths, static_cells, lifeform_alive_counts,
lifeform_static_counts, lifeform_metrics)`; the hexagon/triangle grids
return the 8-tuple that additionally ends with `lifeform_kill_counts` and
`changed_cells`.  The two extra components are modelled as `Option` fields:
`none` means the component is absent from the returned tuple.  The
`lifeform_metrics` placeholder (a dict of empty dicts) carries no data and
is omitted. -/
structure StepResult where
  births : ℕ
  deaths : ℕ
  static_cells : ℕ
  alive_by_species : List (ℕ × ℕ)
  static_by_species : List (ℕ × ℕ)
  kills_by_species : Option (List (ℕ × ℕ))
  changed_cells : Option ℕ
deriving DecidableEq

/-- `births`: number of birth locations
(`birth_locations` entries with a non-empty `potential_parents`). -/
def stepBirths (g : GridState) (count : ℕ → ℕ → ℕ) : ℕ :=
  (List.range g.size).countP
    (fun i => 0 < possibleBirth g.lifeforms count g.cells i)

/-- `deaths`: summed over lifeforms, the size of each death mask. -/
def stepDeaths (g : GridState) (count : ℕ → ℕ → ℕ) : ℕ :=
  (g.lifeforms.map (fun lf =>
    (List.range g.size).countP (fun i =>
      g.cells i = lf.id ∧ ¬ count lf.id i ∈ lf.survival_rules))).sum

/-- `static_cells = np.sum(self.grid_lifespans > 10)` on the post-step
lifespan array. -/
def stepStatic (size : ℕ) (newLifespans : ℕ → ℕ) : ℕ :=
  (List.range size).countP (fun i => 10 < newLifespans i)

/-- `lifeform_alive_counts`: per-species post-step population. -/
def aliveBySpecies (lfs : List Lifeform) (size : ℕ) (newCells : ℕ → ℕ) :
    List (ℕ × ℕ) :=
  lfs.map (fun lf => (lf.id, (List.range size).countP (fun i => newCells i = lf.id)))

/-- `lifeform_static_counts`: per-species post-step cells with
`lifespan > 10`. -/
def staticBySpecies (lfs : List Lifeform) (size : ℕ) (newCells : ℕ → ℕ)
    (newLifespans : ℕ → ℕ) : List (ℕ × ℕ) :=
  lfs.map (fun lf => (lf.id,
    (List.range size).countP (fun i => newCells i = lf.id ∧ 10 < newLifespans i)))

/-- `changed_cells = np.sum(self.grid != new_grid)`. -/
def changedCells (size : ℕ) (oldCells newCells : ℕ → ℕ) : ℕ :=
  (List.range size).countP (fun i => ¬ oldCells i = newCells i)

/-- `lifeform_kill_counts` as a `(species id, kills)` list in lifeform
order. -/
def killsBySpecies (lfs : List Lifeform) (oldCells : ℕ → ℕ)
    (count : ℕ → ℕ → ℕ) (size : ℕ) : List (ℕ × ℕ) :=
  lfs.map (fun lf => (lf.id, killCount lfs oldCells count size lf.id))

/-- Embeds `square_grid.py::SquareGrid.update`: Moore-neighbourhood counts
via wrapped convolution, birth pass, survival/death pass, generation
increment, and the **6-tuple** result — per-species kill counts and the
changed-cell count are not computed and not returned (`kills_by_species`
and `changed_cells` are `none`). -/
def squareUpdate (g : GridState) (choice : ℕ → ℕ) : GridState × StepResult :=
  let count := squareNeighborCount g
  let p := stepArrays g count choice
  ({ g with cells := p.1, lifespans := p.2, generation := g.generation + 1 },
   { births := stepBirths g count
     deaths := stepDeaths g count
     static_cells := stepStatic g.size p.2
     alive_by_species := aliveBySpecies g.lifeforms g.size p.1
     static_by_species := staticBySpecies g.lifeforms g.size p.1 p.2
     kills_by_species := none
     changed_cells := none })

/-- Embeds `hexagon_grid_numpy.py::HexagonGridNumpy.update` and
`triangle_grid_numpy.py::TriangleGridNumpy.update` (their bodies are
textually identical; they differ only in the stored dense neighbour-index
matrix `nbr`): dense-gather counts, birth pass, survival/death pass with
kill attribution, generation increment, and the **8-tuple** result
including per-species kill counts and the changed-cell count. -/
def denseUpdate (nbr : ℕ → List ℤ) (g : GridState) (choice : ℕ → ℕ) :
    GridState × StepResult :=
  let count := denseNeighborCount g.size g.cells nbr
  let p := stepArrays g count choice
  ({ g with cells := p.1, lifespans := p.2, generation := g.generation + 1 },
   { births := stepBirths g count
     deaths := stepDeaths g count
     static_cells := stepStatic g.size p.2
     alive_by_species := aliveBySpecies g.lifeforms g.size p.1
     static_by_species := staticBySpecies g.lifeforms g.size p.1 p.2
     kills_by_species := some (killsBySpecies g.lifeforms g.cells count g.size)
     changed_cells := some (changedCells g.size g.cells p.1) })

/-- `num_alive_cells = int(width * height * initial_alive_percentage)`:
Python `int()` truncates toward zero, which for a non-negative product is
the floor. -/
def numAliveCells (w h : ℕ) (p : ℚ) : ℕ :=
  (⌊(w * h : ℚ) * p⌋).toNat

/-- The id assigned to the `k`-th chosen cell:
`np.random.choice([lf.id for lf in lifeforms], size=num)` modelled by the
oracle `sc` picking a position in the id list. -/
def assignedId (lfs : List Lifeform) (sc : ℕ → ℕ) (k : ℕ) : ℕ :=
  (lfs.map (fun lf => lf.id)).getD (sc k % lfs.length) 0

/-- Embeds `create_grid` (identical seeding logic in `square_grid.py`,
`hexagon_grid_numpy.py` and `triangle_grid_numpy.py`, acting on the
freshly zeroed arrays): `num_alive_cells` distinct flat indices
(`aliveIdx`, the `np.random.choice(..., replace=False)` draw) are set
alive; with a non-empty lifeform list the `k`-th chosen cell receives
`assignedId sc k`, otherwise id `1`; chosen cells get lifespan 1. -/
def createGrid (w h : ℕ) (p : ℚ) (lfs : List Lifeform)
    (aliveIdx : List ℕ) (sc : ℕ → ℕ) : GridState :=
  if 0 < numAliveCells w h p ∧ lfs ≠ [] then
    { width := w, height := h
      cells := fun i => if i ∈ aliveIdx
        then assignedId lfs sc (aliveIdx.indexOf i) else 0
      lifespans := fun i => if i ∈ aliveIdx then 1 else 0
      generation := 0, lifeforms := lfs }
  else if 0 < numAliveCells w h p then
    { width := w, height := h
      cells := fun i => if i ∈ aliveIdx then 1 else 0
      lifespans := fun i => if i ∈ aliveIdx then 1 else 0
      generation := 0, lifeforms := lfs }
  else
    { width := w, height := h, cells := fun _ => 0, lifespans := fun _ => 0
      generation := 0, lifeforms := lfs }

/-- Point update of a flat array. -/
def setAt (f : ℕ → ℕ) (i v : ℕ) : ℕ → ℕ :=
  fun j => if j = i then v else f j

/-- Embeds the cell-toggling core of `SquareGrid.handle_click` (the
pixel-to-cell arithmetic is rendering geometry and is supplied as the
already-computed cell coordinates `gx, gy`): inside the grid, a live cell
is cleared, a dead cell becomes alive under `random.choice(lifeforms)`
(id `1` when the lifeform list is empty), with lifespan set accordingly. -/
def handleClick (g : GridState) (gx gy : ℤ) (r : ℕ) : GridState :=
  if 0 ≤ gy ∧ gy < (g.height : ℤ) ∧ 0 ≤ gx ∧ gx < (g.width : ℤ) then
    let i := gy.toNat * g.width + gx.toNat
    if 0 < g.cells i then
      { g with cells := setAt g.cells i 0, lifespans := setAt g.lifespans i 0 }
    else if g.lifeforms ≠ [] then
      { g with
        cells := setAt g.cells i (g.lifeforms.getD (r % g.lifeforms.length) default).id
        lifespans := setAt g.lifespans i 1 }
    else
      { g with cells := setAt g.cells i 1, lifespans := setAt g.lifespans i 1 }
  else g

/-- Number of live cells of the grid. -/
def aliveCount (g : GridState) : ℕ :=
  (List.range g.size).countP (fun i => ¬ g.cells i = 0)

/-- The grid data-model invariant of the spec:
`cells[i] != 0 ⇒ lifespan[i] >= 1` and `cells[i] == 0 ⇒ lifespan[i] == 0`,
over the cells of the grid. -/
def GridInvariant (g : GridState) : Prop :=
  ∀ i, i < g.size →
    (g.cells i ≠ 0 → 1 ≤ g.lifespans i) ∧ (g.cells i = 0 → g.lifespans i = 0)

/-- States of a square-grid session with species list `lfs`: seeded by
`__init__`/`create_grid`, then closed under `update` steps and
`handle_click` toggles. -/
inductive SquareReachable (lfs : List Lifeform) : GridState → Prop
  | init (w h : ℕ) (p : ℚ) (aliveIdx : List ℕ) (sc : ℕ → ℕ) :
      SquareReachable lfs (createGrid w h p lfs aliveIdx sc)
  | step (g : GridState) (choice : ℕ → ℕ) :
      SquareReachable lfs g → SquareReachable lfs (squareUpdate g choice).1
  | toggle (g : GridState) (gx gy : ℤ) (r : ℕ) :
      SquareReachable lfs g → SquareReachable lfs (handleClick g gx gy r)

/-- The three lattice kinds dispatched by `grid_factory.py::create_grid`. -/
inductive Shape
  | square
  | hexagon
  | triangle
deriving DecidableEq

/-- The step operation of the grid built for a given shape.  The hexagon
grid uses its odd-q dense neighbour matrix; the triangle grid's dense
matrix is derived in `_build_neighbor_offsets` by a floating-point
geometric corner search and is therefore supplied as the parameter
`triNbr`. -/
def updateFor (shape : Shape) (wrap : Bool) (triNbr : ℕ → List ℤ)
    (g : GridState) (choice : ℕ → ℕ) : GridState × StepResult :=
  match shape with
  | .square => squareUpdate g choice
  | .hexagon => denseUpdate (hexNeighborRow g.width g.height wrap) g choice
  | .triangle => denseUpdate triNbr g choice

/-- Embeds `experiments/runner.py::make_grid`: build a freshly seeded grid
for a single-lifeform run (the RNG seeding is modelled by the explicit
seeding oracles `aliveIdx` and `sc`). -/
def makeGrid (w h : ℕ) (p0 : ℚ) (lfs : List Lifeform)
    (aliveIdx : List ℕ) (sc : ℕ → ℕ) : GridState :=
  createGrid w h p0 lfs aliveIdx sc

/-- One perturbation of `run_damage_spreading`: toggle cell `i` of the
second grid copy between dead and alive-as-`lfId` (lifespan kept in
lockstep with the species array). -/
def flipCell (lfId : ℕ) (g : GridState) (i : ℕ) : GridState :=
  if g.cells i = 0 then
    { g with cells := setAt g.cells i lfId, lifespans := setAt g.lifespans i 1 }
  else
    { g with cells := setAt g.cells i 0, lifespans := setAt g.lifespans i 0 }

/-- The pair of grids after `t` lockstep updates (`grid_a.update();
grid_b.update()` per loop iteration).  Both updates of an iteration draw
from the one global `random` stream; the disjoint oracle families `rngA`
and `rngB` model the two segments each iteration consumes. -/
def lockstepPair (upd : GridState → (ℕ → ℕ) → GridState × StepResult)
    (a0 b0 : GridState) (rngA rngB : ℕ → ℕ → ℕ) : ℕ → GridState × GridState
  | 0 => (a0, b0)
  | t + 1 =>
    let p := lockstepPair upd a0 b0 rngA rngB t
    ((upd p.1 (rngA t)).1, (upd p.2 (rngB t)).1)

/-- `np.mean(grid_a.grid != grid_b.grid)`: the disagreement fraction of the
two species arrays, as an exact rational. -/
def hammingFrac (size : ℕ) (a b : GridState) : ℚ :=
  ((List.range size).countP (fun i => ¬ a.cells i = b.cells i) : ℕ) / (size : ℚ)

/-- Embeds `experiments/runner.py::run_damage_spreading`: seed one grid,
deep-copy it, toggle `min(flip_cells, total)` oracle-chosen cells of the
copy, then record the Hamming disagreement fraction `H[t]` after `t`
lockstep updates for `t = 0, ..., steps-1`. -/
def runDamageSpreading (shape : Shape) (wrap : Bool) (triNbr : ℕ → List ℤ)
    (rule : Rule) (steps : ℕ) (p0 : ℚ) (w h : ℕ) (flip_cells : ℕ)
    (aliveIdx : List ℕ) (sc : ℕ → ℕ) (flipOracle : List ℕ)
    (rngA rngB : ℕ → ℕ → ℕ) : List ℚ :=
  let lf : Lifeform :=
    ⟨1, rule.birth.sort (· ≤ ·), rule.survive.sort (· ≤ ·)⟩
  let gridA := makeGrid w h p0 [lf] aliveIdx sc
  let total := gridA.size
  let flips := flipOracle.take (min flip_cells total)
  let gridB := flips.foldl (flipCell lf.id) gridA
  let upd := updateFor shape wrap triNbr
  (List.range steps).map (fun t =>
    hammingFrac total (lockstepPair upd gridA gridB rngA rngB t).1
      (lockstepPair upd gridA gridB rngA rngB t).2)

/-- The loop state of `experiments/runner.py::run_timeseries`: the grid,
the `rho`/`activity` series recorded so far, the running
`quiet_streak` counter and `frozen_at`. -/
structure TsState (G : Type) where
  grid : G
  rho : List ℚ
  activity : List ℚ
  quiet_streak : ℕ
  frozen_at : Option ℕ

/-- `burn_in = int(steps * burn_in_frac)`: truncation of the product,
which is the floor for a non-negative fraction. -/
def tsBurnIn (steps : ℕ) (frac : ℚ) : ℕ :=
  (⌊(steps : ℚ) * frac⌋).toNat

/-- One iteration of the `run_timeseries` loop at step index `step`
(the grid is duck-typed in the source, so the step function `upd` and
alive-counting function `alive` are parameters; `total` is
`grid.grid.size`): update the grid when `step > 0`, record
`rho[step] = alive / total`, and for `step > 0` record
`activity[step] = |rho[step] - rho[step-1]|` and run freeze detection —
at or after `burn_in`, a step with `activity <= epsilon` increments
`quiet_streak`, and when the streak reaches `freeze_window` with
`frozen_at` still unset, `frozen_at` becomes the current step index;
any other step resets the streak to `0`. -/
def tsStep {G : Type} (upd : G → G) (alive : G → ℕ) (total : ℕ)
    (burn_in : ℕ) (eps : ℚ) (window : ℕ) (s : TsState G) (step : ℕ) :
    TsState G :=
  let g := if 0 < step then upd s.grid else s.grid
  let rhoT : ℚ := (alive g : ℚ) / (total : ℚ)
  let rho' := s.rho ++ [rhoT]
  if 0 < step then
    let act : ℚ := |rhoT - s.rho.getD (step - 1) 0|
    let activity' := s.activity ++ [act]
    if burn_in ≤ step ∧ act ≤ eps then
      let qs := s.quiet_streak + 1
      { grid := g, rho := rho', activity := activity', quiet_streak := qs
        frozen_at :=
          if window ≤ qs ∧ s.frozen_at = none then some step else s.frozen_at }
    else
      { grid := g, rho := rho', activity := activity', quiet_streak := 0
        frozen_at := s.frozen_at }
  else
    { grid := g, rho := rho', activity := s.activity ++ [0]
      quiet_streak := s.quiet_streak, frozen_at := s.frozen_at }

/-- The `run_timeseries` loop state after the first `k` of `steps`
iterations (`k = steps` gives the returned result). -/
def tsRun {G : Type} (upd : G → G) (alive : G → ℕ) (total : ℕ)
    (steps : ℕ) (frac : ℚ) (eps : ℚ) (window : ℕ) (g0 : G) (k : ℕ) :
    TsState G :=
  (List.range k).foldl (tsStep upd alive total (tsBurnIn steps frac) eps window)
    { grid := g0, rho := [], activity := [], quiet_streak := 0, frozen_at := none }

/-- Embeds `analysis/criticality_score.py::_band_score`: zero outside
`[low, high]`, a linear ramp up to the target band, flat `1.0` inside,
and a linear ramp down after it. -/
noncomputable def band_score (value low high target_low target_high : ℝ) :
    ℝ :=
  if value < low ∨ value > high then 0
  else if value < target_low then (value - low) / (target_low - low)
  else if value > target_high then (high - value) / (high - target_high)
  else 1

/-- `np.mean` over a list of reals (empty list: `0/0 = 0` in `ℝ`, where
NumPy emits NaN; the bound claims hold either way). -/
noncomputable def npMean (l : List ℝ) : ℝ := l.sum / (l.length : ℝ)

/-- `np.std`: the square root of the mean squared deviation. -/
noncomputable def npStd (l : List ℝ) : ℝ :=
  Real.sqrt (npMean (l.map (fun x => (x - npMean l) ^ 2)))

/-- Embeds `analysis/criticality_score.py::score_timeseries`: degenerate
empty series score `0`; otherwise banded scores of post-burn-in means,
clamped variance rewards, the optional damage score, the freeze penalty,
the weighted combination, and the final clamp to `[0, 1]`.
`burn_in = int(steps * 0.4)` is `2 * steps / 5` in exact arithmetic;
`H[-1]`/`H[burn_in]` are modelled with default-`0` lookups (the source
would raise `IndexError` where those defaults are reached). -/
noncomputable def score_timeseries (rho activity : List ℝ)
    (frozen_at : Option ℕ) (steps : ℕ) (H : Option (List ℝ)) : ℝ :=
  if rho.length = 0 ∨ activity.length = 0 then 0
  else
    let burn_in := 2 * steps / 5
    let rho_post := rho.drop burn_in
    let activity_post := activity.drop burn_in
    let rho_mean := npMean rho_post
    let rho_std := npStd rho_post
    let act_mean := npMean activity_post
    let act_std := npStd activity_post
    let alive_score := band_score rho_mean 0 0.6 0.05 0.40
    let activity_score := band_score act_mean 0 0.2 0.005 0.05
    let rho_var_score := min (rho_std / 0.1) 1
    let act_var_score := min (act_std / 0.05) 1
    let damage_score : ℝ :=
      match H with
      | none => 0
      | some Hs =>
        if steps ≤ Hs.length then
          let H_post := Hs.drop burn_in
          let h_mean := npMean H_post
          let h_growth := Hs.getLastD 0 - Hs.getD burn_in 0
          0.5 * band_score h_mean 0 0.8 0.1 0.4 +
            0.5 * band_score h_growth (-0.05) 0.6 0.02 0.2
        else 0
    let freeze_penalty : ℝ :=
      match frozen_at with
      | none => 0
      | some fz => max 0 (1 - (fz : ℝ) / (max 1 steps : ℕ))
    let score := 0.3 * alive_score + 0.2 * activity_score +
      0.15 * rho_var_score + 0.15 * act_var_score + 0.2 * damage_score
    max 0 (min 1 (score * (1 - 0.5 * freeze_penalty)))

/-- Embeds `neighbor_utils.py::get_max_neighbors` (strings as character
lists, as for genomes); the `ValueError` raised on an unrecognised shape
becomes `none`. -/
def getMaxNeighbors (grid_shape : List Char) (triangle_mode : List Char) :
    Option ℕ :=
  let shape := grid_shape.map Char.toLower
  if shape = ['s', 'q', 'u', 'a', 'r', 'e'] then some 8
  else if shape = ['h', 'e', 'x', 'a', 'g', 'o', 'n'] then some 6
  else if shape = ['t', 'r', 'i', 'a', 'n', 'g', 'l', 'e'] then
    some (if triangle_mode = ['e', 'd', 'g', 'e', '+', 'v', 'e', 'r', 't', 'e', 'x']
      then 12 else 3)
  else none

/-- Embeds `game.py::GameOfLife.apply_ruleset_to_lifeform` after string
parsing (the comma-separated rule strings parse to the integer lists
`birth`/`survival`; non-negative values suffice for the claims here): with
a valid index, the lifeform's rule lists are replaced by the *sorted parsed
lists unchanged* — no comparison against the lattice's `max_neighbors`
takes place anywhere in the function. -/
def applyRulesetToLifeform (lifeforms : List Lifeform) (index : ℕ)
    (birth survival : List ℕ) : List Lifeform :=
  if index < lifeforms.length then
    lifeforms.set index
      { lifeforms.getD index default with
        birth_rules := birth.insertionSort (· ≤ ·)
        survival_rules := survival.insertionSort (· ≤ ·) }
  else lifeforms

lemma mem_gene_to_rule_birth (gene : List Char) (N i : ℕ) :
    i ∈ (gene_to_rule gene N).birth ↔
      i < (gene.take (N + 1)).length ∧ (gene.take (N + 1)).getD i '0' = '1' := by
  simp [gene_to_rule]

lemma mem_gene_to_rule_survive (gene : List Char) (N i : ℕ) :
    i ∈ (gene_to_rule gene N).survive ↔
      i < (gene.drop (N + 1)).length ∧ (gene.drop (N + 1)).getD i '0' = '1' := by
  simp [gene_to_rule]

/-- **C2.** Round-trip law of the genome codec: for every `N` and every
bit-string `g` of length `2*(N+1)` whose characters are all `'0'` or `'1'`,
decoding with `gene_to_rule` and re-encoding with `rule_to_gene` returns
`g` exactly. -/
theorem rule_to_gene_gene_to_rule_round_trip (g : List Char) (N : ℕ)
    (hlen : g.length = 2 * (N + 1))
    (hbits : ∀ c ∈ g, c = '0' ∨ c = '1') :
    rule_to_gene (gene_to_rule g N) N = g := by
  have htake : (g.take (N + 1)).length = N + 1 := by
    rw [List.length_take, hlen]; omega
  have hdrop : (g.drop (N + 1)).length = N + 1 := by
    rw [List.length_drop, hlen]; omega
  apply List.ext_getElem
  · simp [rule_to_gene, hlen]
  intro i h1 h2
  have hi : i < 2 * (N + 1) := by simpa [rule_to_gene] using h1
  simp only [rule_to_gene, List.getElem_map, List.getElem_range]
  by_cases hiN : i ≤ N
  · have hit : i < (g.take (N + 1)).length := by omega
    have hbirth : i ∈ (gene_to_rule g N).birth ↔ g[i] = '1' := by
      rw [mem_gene_to_rule_birth]
      rw [List.getD_eq_getElem _ _ hit, List.getElem_take]
      exact ⟨fun h => h.2, fun h => ⟨hit, h⟩⟩
    rcases hbits g[i] (List.getElem_mem h2) with h0 | h1'
    · have hnb : ¬ i ∈ (gene_to_rule g N).birth := by
        rw [hbirth, h0]; decide
      rw [if_pos hiN, if_neg hnb, h0]
    · rw [if_pos hiN, if_pos (hbirth.mpr h1'), h1']
  · have hj : i - (N + 1) < (g.drop (N + 1)).length := by omega
    have hsurv : i - (N + 1) ∈ (gene_to_rule g N).survive ↔ g[i] = '1' := by
      rw [mem_gene_to_rule_survive]
      rw [List.getD_eq_getElem _ _ hj, List.getElem_drop]
      simp only [show (N + 1) + (i - (N + 1)) = i from by omega]
      exact ⟨fun h => h.2, fun h => ⟨hj, h⟩⟩
    rcases hbits g[i] (List.getElem_mem h2) with h0 | h1'
    · have hns : ¬ i - (N + 1) ∈ (gene_to_rule g N).survive := by
        rw [hsurv, h0]; decide
      rw [if_neg hiN, if_neg hns, h0]
    · rw [if_neg hiN, if_pos (hsurv.mpr h1'), h1']

/-- **C2 witness.** The round-trip law instantiated at the concrete
4-character genome `"0110"` with `N = 1`. -/
theorem rule_to_gene_gene_to_rule_round_trip_witness :
    rule_to_gene (gene_to_rule ['0', '1', '1', '0'] 1) 1 = ['0', '1', '1', '0'] :=
  rule_to_gene_gene_to_rule_round_trip ['0', '1', '1', '0'] 1 (by decide)
    (by decide)

/-- **C10.** Decoded genomes are range-safe: for every `N` and every gene
string of length `2*(N+1)`, the decoded rule's birth set and survive set
are both subsets of `{0, ..., N}`. -/
theorem gene_to_rule_range_safe (g : List Char) (N : ℕ)
    (hlen : g.length = 2 * (N + 1)) :
    (gene_to_rule g N).birth ⊆ Finset.range (N + 1) ∧
      (gene_to_rule g N).survive ⊆ Finset.range (N + 1) := by
  constructor
  · intro i hi
    rw [mem_gene_to_rule_birth] at hi
    have := hi.1
    simp only [List.length_take] at this
    simp only [Finset.mem_range]
    omega
  · intro i hi
    rw [mem_gene_to_rule_survive] at hi
    have := hi.1
    simp only [List.length_drop, hlen] at this
    simp only [Finset.mem_range]
    omega

/-- **C10 witness.** Range-safety instantiated at the concrete genome
`"1111"` with `N = 1`: both decoded sets lie inside `{0, 1}`. -/
theorem gene_to_rule_range_safe_witness :
    (gene_to_rule ['1', '1', '1', '1'] 1).birth ⊆ Finset.range 2 ∧
      (gene_to_rule ['1', '1', '1', '1'] 1).survive ⊆ Finset.range 2 :=
  gene_to_rule_range_safe ['1', '1', '1', '1'] 1 (by decide)

/-- **C1** (code bug evidence). Evaluated on a concrete 2×2 grid with one
species, the square grid's step result carries *no* per-species kill
counts and *no* changed-cell count (the source returns a 6-tuple), while
the dense (hexagon/triangle) step result carries both — yet
`game.py:615` unpacks eight components from `grid.update()` for every
lattice kind, including the default `shape='square'`. -/
theorem square_update_missing_result_fields :
    (squareUpdate (createGrid 2 2 0 [⟨1, [3], [2, 3]⟩] [] fun _ => 0)
        (fun _ => 0)).2.kills_by_species = none ∧
    (squareUpdate (createGrid 2 2 0 [⟨1, [3], [2, 3]⟩] [] fun _ => 0)
        (fun _ => 0)).2.changed_cells = none ∧
    ((denseUpdate (hexNeighborRow 2 2 true)
        (createGrid 2 2 0 [⟨1, [3], [2, 3]⟩] [] fun _ => 0)
        (fun _ => 0)).2.kills_by_species).isSome = true ∧
    ((denseUpdate (hexNeighborRow 2 2 true)
        (createGrid 2 2 0 [⟨1, [3], [2, 3]⟩] [] fun _ => 0)
        (fun _ => 0)).2.changed_cells).isSome = true :=
  ⟨rfl, rfl, rfl, rfl⟩

/-- **C5** (code bug evidence). Evaluated at the failing input of the
repository's own test `test_rule_ranges.py::test_hex_invalid_birth_removed`
(hexagon lattice, birth string `"2,6,8"`): the rule-application function
stores the out-of-range value `8` verbatim even though the hexagon
lattice's `max_neighbors` is `6` — no value is dropped and no warning
exists anywhere on this path. -/
theorem apply_ruleset_keeps_out_of_range_values :
    (applyRulesetToLifeform [⟨1, [2], [2, 3]⟩] 0 [2, 6, 8] [2, 3]).getD 0
        default = ⟨1, [2, 6, 8], [2, 3]⟩ ∧
    getMaxNeighbors ['h', 'e', 'x', 'a', 'g', 'o', 'n']
      ['e', 'd', 'g', 'e', '+', 'v', 'e', 'r', 't', 'e', 'x'] = some 6 ∧
    ¬ ∀ v ∈ ((applyRulesetToLifeform [⟨1, [2], [2, 3]⟩] 0 [2, 6, 8]
        [2, 3]).getD 0 default).birth_rules, v ≤ 6 := by
  refine ⟨by decide, by decide, by decide⟩

/-- **C7.** `score_timeseries` always returns a value in `[0, 1]`, and
returns exactly `0` whenever the rho series or the activity series is
empty. -/
theorem score_timeseries_bounded :
    (∀ rho activity fz steps H,
      0 ≤ score_timeseries rho activity fz steps H ∧
        score_timeseries rho activity fz steps H ≤ 1) ∧
    (∀ rho activity fz steps H,
      rho.length = 0 ∨ activity.length = 0 →
        score_timeseries rho activity fz steps H = 0) := by
  constructor
  · intro rho activity fz steps H
    unfold score_timeseries
    by_cases hc : rho.length = 0 ∨ activity.length = 0
    · rw [if_pos hc]
      norm_num
    · rw [if_neg hc]
      exact ⟨le_max_left 0 _, max_le (by norm_num) (min_le_left 1 _)⟩
  · intro rho activity fz steps H h
    unfold score_timeseries
    rw [if_pos h]

/-- **C7 witness.** The degenerate branch evaluated at the concrete empty
input. -/
theorem score_timeseries_bounded_witness :
    score_timeseries [] [] none 0 none = 0 :=
  score_timeseries_bounded.2 [] [] none 0 none (Or.inl rfl)

lemma countP_congr_mem (l : List ℕ) (p q : ℕ → Bool)
    (h : ∀ a ∈ l, p a = q a) : l.countP p = l.countP q := by
  induction l with
  | nil => rfl
  | cons x xs ih =>
    rw [List.countP_cons, List.countP_cons, h x (List.mem_cons_self x xs),
      ih (fun a ha => h a (List.mem_cons_of_mem _ ha))]

lemma countP_range_mem (n : ℕ) (l : List ℕ) (hnd : l.Nodup)
    (hlt : ∀ i ∈ l, i < n) :
    (List.range n).countP (fun i => decide (i ∈ l)) = l.length := by
  rw [List.countP_eq_length_filter]
  refine List.Perm.length_eq
    (List.perm_of_nodup_nodup_toFinset_eq
      (List.Nodup.filter _ (List.nodup_range n)) hnd ?_)
  ext x
  simp only [List.toFinset_filter, List.mem_toFinset, Finset.mem_filter,
    List.mem_range, decide_eq_true_eq]
  exact ⟨fun h => h.2, fun h => ⟨hlt x h, h⟩⟩

lemma assignedId_ne_zero (lfs : List Lifeform) (sc : ℕ → ℕ) (k : ℕ)
    (hne : lfs ≠ []) (hids : ∀ lf ∈ lfs, lf.id ≠ 0) :
    assignedId lfs sc k ≠ 0 := by
  unfold assignedId
  have hlen : 0 < lfs.length := List.length_pos.mpr hne
  have hidx : sc k % lfs.length < (lfs.map (fun lf => lf.id)).length := by
    rw [List.length_map]
    exact Nat.mod_lt _ hlen
  rw [List.getD_eq_getElem _ _ hidx]
  simp only [List.getElem_map]
  exact hids _ (List.getElem_mem _)

/-- **C6 counterexample.** The claim's `round` is falsified on a 3×1 grid
with `initial_alive_fraction = 1/2` and the admissible random draw `[0]`:
the code computes `int(3 * 0.5) = 1` chosen cell (`numAliveCells`), so
exactly one cell is alive after seeding, while
`round(width*height*fraction) = round(1.5) = 2`. -/
theorem create_grid_round_counterexample :
    aliveCount (createGrid 3 1 (1 / 2) [⟨1, [3], [2, 3]⟩] [0] (fun _ => 0))
        = 1 ∧
    numAliveCells 3 1 (1 / 2) = 1 ∧
    ([0] : List ℕ).Nodup ∧ (∀ i ∈ ([0] : List ℕ), i < 3 * 1) ∧
    round ((3 * 1 : ℚ) * (1 / 2)) = (2 : ℤ) ∧
    ¬ aliveCount (createGrid 3 1 (1 / 2) [⟨1, [3], [2, 3]⟩] [0] (fun _ => 0))
        = (round ((3 * 1 : ℚ) * (1 / 2))).toNat := by
  have hnum : numAliveCells 3 1 (1 / 2) = 1 := by
    unfold numAliveCells
    norm_num
  have hround : round ((3 * 1 : ℚ) * (1 / 2)) = (2 : ℤ) := by
    norm_num [round_eq]
  have halive :
      aliveCount (createGrid 3 1 (1 / 2) [⟨1, [3], [2, 3]⟩] [0] (fun _ => 0))
        = 1 := by
    unfold createGrid
    rw [hnum]
    norm_num
    decide
  refine ⟨halive, hnum, by decide, by decide, hround, ?_⟩
  rw [halive, hround]
  decide

/-- **C6 (amended).** For every admissible random draw — `numAliveCells`
(that is, `int(width*height*fraction)`, the floor, not `round`) distinct
in-range cell indices, each assigned a species drawn from the active
species list (non-zero ids) — the number of alive cells immediately after
seeding equals `numAliveCells width height fraction`. -/
theorem create_grid_alive_count (w h : ℕ) (p : ℚ) (lfs : List Lifeform)
    (aliveIdx : List ℕ) (sc : ℕ → ℕ)
    (hlen : aliveIdx.length = numAliveCells w h p)
    (hnd : aliveIdx.Nodup)
    (hlt : ∀ i ∈ aliveIdx, i < w * h)
    (hids : ∀ lf ∈ lfs, lf.id ≠ 0) :
    aliveCount (createGrid w h p lfs aliveIdx sc) = numAliveCells w h p := by
  unfold aliveCount createGrid
  split_ifs with h1 h2
  · simp only [GridState.size]
    rw [countP_congr_mem _ _ (fun i => decide (i ∈ aliveIdx)) ?_,
      countP_range_mem _ _ hnd hlt, hlen]
    intro a _
    by_cases ha : a ∈ aliveIdx
    · have hne := assignedId_ne_zero lfs sc (aliveIdx.indexOf a) h1.2 hids
      simp [ha, hne]
    · simp [ha]
  · simp only [GridState.size]
    rw [countP_congr_mem _ _ (fun i => decide (i ∈ aliveIdx)) ?_,
      countP_range_mem _ _ hnd hlt, hlen]
    intro a _
    by_cases ha : a ∈ aliveIdx
    · simp [ha]
    · simp [ha]
  · have h0 : numAliveCells w h p = 0 := by omega
    simp [GridState.size, h0, List.countP_eq_length_filter]

/-- **C6 witness.** The amended count law at a concrete seeding: a 2×2
grid at fraction `3/4` yields `int(3.0) = 3` alive cells. -/
theorem create_grid_alive_count_witness :
    aliveCount (createGrid 2 2 (3 / 4) [⟨1, [3], [2, 3]⟩] [0, 1, 3]
      (fun _ => 0)) = numAliveCells 2 2 (3 / 4) :=
  create_grid_alive_count 2 2 (3 / 4) [⟨1, [3], [2, 3]⟩] [0, 1, 3]
    (fun _ => 0) (by unfold numAliveCells; norm_num; decide) (by decide)
    (by decide) (by decide)

lemma argmaxAux_spec (rest : List ℤ) : ∀ (bi k : ℕ) (bv : ℤ),
    (argmaxAux bi bv k rest = bi ∧
      ∀ m (hm : m < rest.length), rest.get ⟨m, hm⟩ ≤ bv) ∨
    (∃ m, ∃ (hm : m < rest.length), argmaxAux bi bv k rest = k + m ∧
      bv ≤ rest.get ⟨m, hm⟩ ∧
      ∀ m' (h' : m' < rest.length), rest.get ⟨m', h'⟩ ≤ rest.get ⟨m, hm⟩) := by
  induction rest with
  | nil =>
    intro bi k bv
    left
    exact ⟨rfl, fun m hm => absurd hm (by simp)⟩
  | cons v vs ih =>
    intro bi k bv
    by_cases hlt : bv < v
    · have hstep : argmaxAux bi bv k (v :: vs) = argmaxAux k v (k + 1) vs := by
        simp [argmaxAux, hlt]
      rw [hstep]
      rcases ih k (k + 1) v with ⟨heq, hmax⟩ | ⟨m, hm, heq, hge, hmax⟩
      · right
        refine ⟨0, by simp, by rw [heq]; omega, le_of_lt hlt, ?_⟩
        intro m' h'
        match m' with
        | 0 => exact le_refl _
        | m'' + 1 =>
          exact hmax m'' (by simpa using h')
      · right
        refine ⟨m + 1, by simpa using Nat.succ_lt_succ hm, ?_, ?_, ?_⟩
        · rw [heq]; omega
        · exact le_of_lt (lt_of_lt_of_le hlt hge)
        · intro m' h'
          match m' with
          | 0 => exact hge
          | m'' + 1 => exact hmax m'' (by simpa using h')
    · have hstep : argmaxAux bi bv k (v :: vs) = argmaxAux bi bv (k + 1) vs := by
        simp [argmaxAux, hlt]
      rw [hstep]
      have hvle : v ≤ bv := le_of_not_lt hlt
      rcases ih bi (k + 1) bv with ⟨heq, hmax⟩ | ⟨m, hm, heq, hge, hmax⟩
      · left
        refine ⟨heq, ?_⟩
        intro m' h'
        match m' with
        | 0 => exact hvle
        | m'' + 1 => exact hmax m'' (by simpa using h')
      · right
        refine ⟨m + 1, by simpa using Nat.succ_lt_succ hm, ?_, ?_, ?_⟩
        · rw [heq]; omega
        · exact hge
        · intro m' h'
          match m' with
          | 0 => exact le_trans hvle hge
          | m'' + 1 => exact hmax m'' (by simpa using h')

lemma argmaxIdx_lt (l : List ℤ) (hne : l ≠ []) : argmaxIdx l < l.length := by
  match l with
  | v :: vs =>
    show argmaxAux 0 v 1 vs < vs.length + 1
    rcases argmaxAux_spec vs 0 1 v with ⟨heq, -⟩ | ⟨m, hm, heq, -, -⟩
    · omega
    · omega

lemma argmaxIdx_max (l : List ℤ) (j : ℕ) (hj : j < l.length) :
    l.getD j 0 ≤ l.getD (argmaxIdx l) 0 := by
  match l with
  | v :: vs =>
    show (v :: vs).getD j 0 ≤ (v :: vs).getD (argmaxAux 0 v 1 vs) 0
    rcases argmaxAux_spec vs 0 1 v with ⟨heq, hmax⟩ | ⟨m, hm, heq, hge, hmax⟩
    · rw [heq]
      match j with
      | 0 => exact le_refl _
      | j' + 1 =>
        have hj' : j' < vs.length := by simpa using hj
        rw [List.getD_cons_succ, List.getD_cons_zero,
          List.getD_eq_getElem _ _ hj']
        exact hmax j' hj'
    · rw [heq]
      have h1m : (1 : ℕ) + m = m + 1 := by omega
      rw [h1m, List.getD_cons_succ, List.getD_eq_getElem _ _ hm]
      match j with
      | 0 => exact hge
      | j' + 1 =>
        have hj' : j' < vs.length := by simpa using hj
        rw [List.getD_cons_succ, List.getD_eq_getElem _ _ hj']
        exact hmax j' hj'

lemma getD_le_sum (l : List ℕ) (j : ℕ) (hj : j < l.length) :
    l.getD j 0 ≤ l.sum := by
  induction l generalizing j with
  | nil => simp at hj
  | cons x xs ih =>
    match j with
    | 0 => simp [List.getD_cons_zero]
    | j' + 1 =>
      have hj' : j' < xs.length := by simpa using hj
      rw [List.getD_cons_succ, List.sum_cons]
      exact le_trans (ih j' hj') (Nat.le_add_left _ _)

lemma pair_le_sum (l : List ℕ) (j k : ℕ) (hj : j < l.length)
    (hk : k < l.length) (hne : j ≠ k) :
    l.getD j 0 + l.getD k 0 ≤ l.sum := by
  induction l generalizing j k with
  | nil => simp at hj
  | cons x xs ih =>
    match j, k with
    | 0, 0 => omega
    | 0, k' + 1 =>
      have hk' : k' < xs.length := by simpa using hk
      rw [List.getD_cons_zero, List.getD_cons_succ, List.sum_cons]
      exact Nat.add_le_add_left (getD_le_sum xs k' hk') x
    | j' + 1, 0 =>
      have hj' : j' < xs.length := by simpa using hj
      rw [List.getD_cons_zero, List.getD_cons_succ, List.sum_cons]
      rw [Nat.add_comm]
      exact Nat.add_le_add_left (getD_le_sum xs j' hj') x
    | j' + 1, k' + 1 =>
      have hj' : j' < xs.length := by simpa using hj
      have hk' : k' < xs.length := by simpa using hk
      rw [List.getD_cons_succ, List.getD_cons_succ, List.sum_cons]
      exact le_trans (ih j' k' hj' hk' (by omega)) (Nat.le_add_left _ _)

lemma killerVals_length (lfs : List Lifeform) (count : ℕ → ℕ → ℕ)
    (lfIdx i : ℕ) : (killerVals lfs count lfIdx i).length = lfs.length := by
  simp [killerVals]

lemma killerVals_getD (lfs : List Lifeform) (count : ℕ → ℕ → ℕ)
    (lfIdx i j : ℕ) (hj : j < lfs.length) :
    (killerVals lfs count lfIdx i).getD j 0 =
      if j = lfIdx then (-1 : ℤ)
      else (count (lfs.getD j default).id i : ℤ) := by
  have hj' : j < (killerVals lfs count lfIdx i).length := by
    rwa [killerVals_length]
  rw [List.getD_eq_getElem _ _ hj']
  simp [killerVals, List.getD_eq_getElem _ _ hj]

lemma getD_map_count (lfs : List Lifeform) (f : Lifeform → ℕ) (j : ℕ)
    (hj : j < lfs.length) :
    (lfs.map f).getD j 0 = f (lfs.getD j default) := by
  have hj' : j < (lfs.map f).length := by simpa using hj
  rw [List.getD_eq_getElem _ _ hj', List.getElem_map,
    List.getD_eq_getElem _ _ hj]

lemma nodup_ids_getD_ne (lfs : List Lifeform)
    (hnd : (lfs.map (fun lf => lf.id)).Nodup) (j j' : ℕ)
    (hj : j < lfs.length) (hj' : j' < lfs.length) (hne : j ≠ j') :
    (lfs.getD j default).id ≠ (lfs.getD j' default).id := by
  intro heq
  apply hne
  have hj2 : j < (lfs.map (fun lf => lf.id)).length := by simpa using hj
  have hj2' : j' < (lfs.map (fun lf => lf.id)).length := by simpa using hj'
  refine (@List.Nodup.getElem_inj_iff ℕ _ hnd j hj2 j' hj2').mp ?_
  rw [List.getElem_map, List.getElem_map,
    ← List.getD_eq_getElem lfs default hj, ← List.getD_eq_getElem lfs default hj']
  exact heq

lemma killContribution_eq (lfs : List Lifeform) (oldCells : ℕ → ℕ)
    (count : ℕ → ℕ → ℕ) (lfIdx i : ℕ) :
    killContribution lfs oldCells count lfIdx i =
      if overcrowdDeath (lfs.getD lfIdx default) oldCells count i then
        (if ((killerVals lfs count lfIdx i).getD
              (argmaxIdx (killerVals lfs count lfIdx i)) 0 : ℚ) >
            (totalNeighborsAll lfs count i : ℚ) / 2 ∧
            (lfs.getD (argmaxIdx (killerVals lfs count lfIdx i)) default).id ≠
              (lfs.getD lfIdx default).id
          then some (lfs.getD (argmaxIdx (killerVals lfs count lfIdx i))
            default).id
          else none)
      else none := rfl

/-- **C4.** Kill attribution: on an overcrowding death of the species at
position `lfIdx` (its own-species neighbour count exceeds
`max(survival_rules)`), a kill is attributed to species `B` if and only if
`B`'s neighbour count is the single largest among the other species at the
cell and strictly exceeds half the total neighbour occupancy
(`total < 2 * count B`, the integer form of `count B > total / 2`); a
non-overcrowding (starvation) death attributes no kill. -/
theorem kill_attribution_iff (lfs : List Lifeform) (oldCells : ℕ → ℕ)
    (count : ℕ → ℕ → ℕ) (lfIdx i : ℕ)
    (hlt : lfIdx < lfs.length)
    (hnd : (lfs.map (fun lf => lf.id)).Nodup) :
    (¬ overcrowdDeath (lfs.getD lfIdx default) oldCells count i →
      killContribution lfs oldCells count lfIdx i = none) ∧
    (overcrowdDeath (lfs.getD lfIdx default) oldCells count i →
      ∀ B, B ∈ lfs → B.id ≠ (lfs.getD lfIdx default).id →
        (killContribution lfs oldCells count lfIdx i = some B.id ↔
          ((∀ C, C ∈ lfs → C.id ≠ B.id →
              C.id ≠ (lfs.getD lfIdx default).id →
              count C.id i < count B.id i) ∧
            totalNeighborsAll lfs count i < 2 * count B.id i))) := by
  have hvlen : (killerVals lfs count lfIdx i).length = lfs.length :=
    killerVals_length lfs count lfIdx i
  have hvne : killerVals lfs count lfIdx i ≠ [] := by
    intro h
    rw [h] at hvlen
    simp at hvlen
    omega
  have hkl : argmaxIdx (killerVals lfs count lfIdx i) < lfs.length := by
    rw [← hvlen]
    exact argmaxIdx_lt _ hvne
  constructor
  · intro h
    rw [killContribution_eq, if_neg h]
  · intro hover B hB hBne
    rw [killContribution_eq, if_pos hover]
    obtain ⟨jB, hjB, hBeq⟩ := List.mem_iff_getElem.mp hB
    have hgetB : lfs.getD jB default = B := by
      rw [List.getD_eq_getElem _ _ hjB, hBeq]
    have hjBl : jB ≠ lfIdx := by
      intro h
      exact hBne (by rw [← hgetB, h])
    have hvjB : (killerVals lfs count lfIdx i).getD jB 0
        = (count B.id i : ℤ) := by
      rw [killerVals_getD lfs count lfIdx i jB hjB, if_neg hjBl, hgetB]
    constructor
    · intro hsome
      by_cases hcond : ((killerVals lfs count lfIdx i).getD
            (argmaxIdx (killerVals lfs count lfIdx i)) 0 : ℚ) >
          (totalNeighborsAll lfs count i : ℚ) / 2 ∧
          (lfs.getD (argmaxIdx (killerVals lfs count lfIdx i)) default).id ≠
            (lfs.getD lfIdx default).id
      · rw [if_pos hcond] at hsome
        have hcid : (lfs.getD (argmaxIdx (killerVals lfs count lfIdx i))
            default).id = B.id := by
          exact Option.some.inj hsome
        have hknei : argmaxIdx (killerVals lfs count lfIdx i) ≠ lfIdx := by
          intro h
          exact hcond.2 (by rw [h])
        have hvk : (killerVals lfs count lfIdx i).getD
            (argmaxIdx (killerVals lfs count lfIdx i)) 0 =
            (count (lfs.getD (argmaxIdx (killerVals lfs count lfIdx i))
              default).id i : ℤ) := by
          rw [killerVals_getD lfs count lfIdx i _ hkl, if_neg hknei]
        have hmajZ : (totalNeighborsAll lfs count i : ℚ) <
            2 * (count (lfs.getD (argmaxIdx (killerVals lfs count lfIdx i))
              default).id i : ℚ) := by
          have h1 := hcond.1
          rw [hvk] at h1
          push_cast at h1 ⊢
          linarith
        have hmaj : totalNeighborsAll lfs count i <
            2 * count B.id i := by
          rw [hcid] at hmajZ
          exact_mod_cast hmajZ
        refine ⟨?_, hmaj⟩
        intro C hC hCB hCd
        obtain ⟨jC, hjC, hCeq⟩ := List.mem_iff_getElem.mp hC
        have hgetC : lfs.getD jC default = C := by
          rw [List.getD_eq_getElem _ _ hjC, hCeq]
        have hjCk : jC ≠ argmaxIdx (killerVals lfs count lfIdx i) := by
          intro h
          apply hCB
          rw [← hgetC, h, hcid]
        have hjCl : jC ≠ lfIdx := by
          intro h
          exact hCd (by rw [← hgetC, h])
        have hle := argmaxIdx_max (killerVals lfs count lfIdx i) jC
          (by rw [hvlen]; exact hjC)
        rw [killerVals_getD lfs count lfIdx i jC hjC, if_neg hjCl, hgetC,
          hvk, hcid] at hle
        have hle' : count C.id i ≤ count B.id i := by exact_mod_cast hle
        rcases lt_or_eq_of_le hle' with h | h
        · exact h
        · exfalso
          have hk2 : argmaxIdx (killerVals lfs count lfIdx i) <
              (lfs.map (fun lf => count lf.id i)).length := by simpa using hkl
          have hjC2 : jC < (lfs.map (fun lf => count lf.id i)).length := by
            simpa using hjC
          have hpair := pair_le_sum (lfs.map (fun lf => count lf.id i))
            (argmaxIdx (killerVals lfs count lfIdx i)) jC hk2 hjC2
            (fun hh => hjCk hh.symm)
          rw [getD_map_count lfs _ _ hkl, getD_map_count lfs _ _ hjC,
            hgetC, hcid] at hpair
          have htot : totalNeighborsAll lfs count i =
              (lfs.map (fun lf => count lf.id i)).sum := rfl
          omega
      · rw [if_neg hcond] at hsome
        exact absurd hsome (by simp)
    · rintro ⟨hmax, hmaj⟩
      have hBpos : 0 < count B.id i := by
        have hjB2 : jB < (lfs.map (fun lf => count lf.id i)).length := by
          simpa using hjB
        have hle := getD_le_sum (lfs.map (fun lf => count lf.id i)) jB hjB2
        rw [getD_map_count lfs _ _ hjB, hgetB] at hle
        have htot : totalNeighborsAll lfs count i =
            (lfs.map (fun lf => count lf.id i)).sum := rfl
        omega
      have hstrict : ∀ j, j < lfs.length →
          j ≠ jB → (killerVals lfs count lfIdx i).getD j 0 <
            (killerVals lfs count lfIdx i).getD jB 0 := by
        intro j hj hne
        rw [hvjB]
        by_cases hjl : j = lfIdx
        · rw [killerVals_getD lfs count lfIdx i j hj, if_pos hjl]
          omega
        · rw [killerVals_getD lfs count lfIdx i j hj, if_neg hjl]
          have hCmem : lfs.getD j default ∈ lfs := by
            rw [List.getD_eq_getElem _ _ hj]
            exact List.getElem_mem _
          have hCBne : (lfs.getD j default).id ≠ B.id := by
            rw [← hgetB]
            exact nodup_ids_getD_ne lfs hnd j jB hj hjB hne
          have hCdne : (lfs.getD j default).id ≠
              (lfs.getD lfIdx default).id :=
            nodup_ids_getD_ne lfs hnd j lfIdx hj hlt hjl
          have := hmax _ hCmem hCBne hCdne
          exact_mod_cast this
      have hkjB : argmaxIdx (killerVals lfs count lfIdx i) = jB := by
        by_contra hne
        have h1 := argmaxIdx_max (killerVals lfs count lfIdx i) jB
          (by rw [hvlen]; exact hjB)
        have h2 := hstrict (argmaxIdx (killerVals lfs count lfIdx i)) hkl hne
        omega
      have hcond : ((killerVals lfs count lfIdx i).getD
            (argmaxIdx (killerVals lfs count lfIdx i)) 0 : ℚ) >
          (totalNeighborsAll lfs count i : ℚ) / 2 ∧
          (lfs.getD (argmaxIdx (killerVals lfs count lfIdx i)) default).id ≠
            (lfs.getD lfIdx default).id := by
        constructor
        · rw [hkjB, hvjB]
          have h2 : (totalNeighborsAll lfs count i : ℚ) <
              2 * (count B.id i : ℚ) := by exact_mod_cast hmaj
          push_cast
          linarith
        · rw [hkjB, hgetB]
          exact hBne
      rw [if_pos hcond, hkjB, hgetB]

/-- **C4 witness.** The attribution law at a concrete overcrowding death:
species 1 (survival `{2}`) dies at a cell with own count 3, species 2 has
5 neighbours there and species 3 has 0, so the total occupancy is 8 and
`5 > 8/2`: the kill is attributed to species 2. -/
theorem kill_attribution_iff_witness :
    killContribution [⟨1, [], [2]⟩, ⟨2, [], []⟩, ⟨3, [], []⟩]
      (fun _ => 1)
      (fun id _ => if id = 1 then 3 else if id = 2 then 5 else 0) 0 0
      = some 2 := by
  have h := (kill_attribution_iff
    [⟨1, [], [2]⟩, ⟨2, [], []⟩, ⟨3, [], []⟩] (fun _ => 1)
    (fun id _ => if id = 1 then 3 else if id = 2 then 5 else 0) 0 0
    (by decide) (by decide)).2
    (by constructor
        · decide
        · constructor
          · decide
          · decide)
    ⟨2, [], []⟩ (by decide) (by decide)
  exact h.mpr ⟨by decide, by decide⟩

lemma foldl_pass_not_mem (oldCells : ℕ → ℕ) (count : ℕ → ℕ → ℕ) (i : ℕ) :
    ∀ (lfs : List Lifeform) (p : (ℕ → ℕ) × (ℕ → ℕ)),
      (∀ lf ∈ lfs, oldCells i ≠ lf.id) →
      (lfs.foldl (survivalDeathPass oldCells count) p).1 i = p.1 i ∧
      (lfs.foldl (survivalDeathPass oldCells count) p).2 i = p.2 i := by
  intro lfs
  induction lfs with
  | nil => intro p _; exact ⟨rfl, rfl⟩
  | cons head tail ih =>
    intro p h
    have hhead := h head (List.mem_cons_self _ _)
    have htail : ∀ l ∈ tail, oldCells i ≠ l.id :=
      fun l hl => h l (List.mem_cons_of_mem _ hl)
    rw [List.foldl_cons]
    obtain ⟨e1, e2⟩ := ih (survivalDeathPass oldCells count p head) htail
    refine ⟨?_, ?_⟩
    · rw [e1]
      show (if oldCells i = head.id ∧ ¬ count head.id i ∈ head.survival_rules
        then 0 else p.1 i) = p.1 i
      rw [if_neg (fun hc => hhead hc.1)]
    · rw [e2]
      show (if oldCells i = head.id then _ else p.2 i) = p.2 i
      rw [if_neg hhead]

lemma foldl_pass_alive (oldCells : ℕ → ℕ) (count : ℕ → ℕ → ℕ) (i : ℕ) :
    ∀ (lfs : List Lifeform) (p : (ℕ → ℕ) × (ℕ → ℕ)) (lf : Lifeform),
      lf ∈ lfs → oldCells i = lf.id →
      (lfs.map (fun l => l.id)).Nodup →
      ((count lf.id i ∈ lf.survival_rules →
        (lfs.foldl (survivalDeathPass oldCells count) p).1 i = p.1 i ∧
        (lfs.foldl (survivalDeathPass oldCells count) p).2 i = p.2 i + 1) ∧
      (¬ count lf.id i ∈ lf.survival_rules →
        (lfs.foldl (survivalDeathPass oldCells count) p).1 i = 0 ∧
        (lfs.foldl (survivalDeathPass oldCells count) p).2 i = 0)) := by
  intro lfs
  induction lfs with
  | nil => intro p lf hmem; exact absurd hmem (by simp)
  | cons head tail ih =>
    intro p lf hmem hid hnd
    rw [List.foldl_cons]
    have hndtail : (tail.map (fun l => l.id)).Nodup :=
      (List.nodup_cons.mp (by simpa using hnd)).2
    have hhead_notin : head.id ∉ tail.map (fun l => l.id) :=
      (List.nodup_cons.mp (by simpa using hnd)).1
    rcases List.mem_cons.mp hmem with heq | htail
    · subst heq
      have hnotail : ∀ l ∈ tail, oldCells i ≠ l.id := by
        intro l hl hcontra
        exact hhead_notin (by
          rw [hid] at hcontra
          exact hcontra ▸ List.mem_map_of_mem _ hl)
      obtain ⟨e1, e2⟩ := foldl_pass_not_mem oldCells count i tail
        (survivalDeathPass oldCells count p lf) hnotail
      constructor
      · intro hs
        refine ⟨?_, ?_⟩
        · rw [e1]
          show (if oldCells i = lf.id ∧ ¬ count lf.id i ∈ lf.survival_rules
            then 0 else p.1 i) = p.1 i
          rw [if_neg (fun hc => hc.2 hs)]
        · rw [e2]
          show (if oldCells i = lf.id
            then (if count lf.id i ∈ lf.survival_rules then p.2 i + 1 else 0)
            else p.2 i) = p.2 i + 1
          rw [if_pos hid, if_pos hs]
      · intro hs
        refine ⟨?_, ?_⟩
        · rw [e1]
          show (if oldCells i = lf.id ∧ ¬ count lf.id i ∈ lf.survival_rules
            then 0 else p.1 i) = 0
          rw [if_pos ⟨hid, hs⟩]
        · rw [e2]
          show (if oldCells i = lf.id
            then (if count lf.id i ∈ lf.survival_rules then p.2 i + 1 else 0)
            else p.2 i) = 0
          rw [if_pos hid, if_neg hs]
    · have hhead : oldCells i ≠ head.id := by
        intro hcontra
        apply hhead_notin
        have : lf.id = head.id := by rw [← hid, hcontra]
        exact this ▸ List.mem_map_of_mem _ htail
      have hp1 : (survivalDeathPass oldCells count p head).1 i = p.1 i := by
        show (if oldCells i = head.id ∧ _ then 0 else p.1 i) = p.1 i
        rw [if_neg (fun hc => hhead hc.1)]
      have hp2 : (survivalDeathPass oldCells count p head).2 i = p.2 i := by
        show (if oldCells i = head.id then _ else p.2 i) = p.2 i
        rw [if_neg hhead]
      obtain ⟨ih1, ih2⟩ := ih (survivalDeathPass oldCells count p head) lf
        htail hid hndtail
      constructor
      · intro hs
        obtain ⟨r1, r2⟩ := ih1 hs
        exact ⟨by rw [r1, hp1], by rw [r2, hp2]⟩
      · intro hs
        exact ih2 hs

lemma possibleBirth_aux (cells : ℕ → ℕ) (count : ℕ → ℕ → ℕ) (i : ℕ) :
    ∀ (lfs : List Lifeform) (acc : ℕ),
      lfs.foldl (fun acc lf =>
        if cells i = 0 ∧ count lf.id i ∈ lf.birth_rules then lf.id else acc)
        acc = acc ∨
      ∃ lf ∈ lfs, cells i = 0 ∧ count lf.id i ∈ lf.birth_rules := by
  intro lfs
  induction lfs with
  | nil => intro acc; left; rfl
  | cons head tail ih =>
    intro acc
    by_cases hc : cells i = 0 ∧ count head.id i ∈ head.birth_rules
    · right
      exact ⟨head, List.mem_cons_self _ _, hc⟩
    · rw [List.foldl_cons, if_neg hc]
      rcases ih acc with h | ⟨lf, hlf, hcond⟩
      · left; exact h
      · right; exact ⟨lf, List.mem_cons_of_mem _ hlf, hcond⟩

lemma possibleBirth_pos_imp (lfs : List Lifeform) (count : ℕ → ℕ → ℕ)
    (cells : ℕ → ℕ) (i : ℕ)
    (h : 0 < possibleBirth lfs count cells i) :
    cells i = 0 ∧ birthCandidates lfs count i ≠ [] := by
  rcases possibleBirth_aux cells count i lfs 0 with h0 | ⟨lf, hlf, hdead, hbirth⟩
  · exfalso
    have h0' : possibleBirth lfs count cells i = 0 := h0
    omega
  · refine ⟨hdead, ?_⟩
    have hmem : lf ∈ birthCandidates lfs count i :=
      List.mem_filter.mpr ⟨hlf, by simpa using hbirth⟩
    exact List.ne_nil_of_mem hmem

lemma possibleBirth_eq_zero_of_alive (lfs : List Lifeform)
    (count : ℕ → ℕ → ℕ) (cells : ℕ → ℕ) (i : ℕ) (h : cells i ≠ 0) :
    possibleBirth lfs count cells i = 0 := by
  rcases possibleBirth_aux cells count i lfs 0 with h0 | ⟨lf, _, hdead, _⟩
  · exact h0
  · exact absurd hdead h

lemma chosenParent_ne_zero (lfs : List Lifeform) (count : ℕ → ℕ → ℕ)
    (choice : ℕ → ℕ) (i : ℕ)
    (hids : ∀ lf ∈ lfs, lf.id ≠ 0)
    (hcand : birthCandidates lfs count i ≠ []) :
    chosenParent lfs count choice i ≠ 0 := by
  have hlen : 0 < (birthCandidates lfs count i).length :=
    List.length_pos.mpr hcand
  have hidx : choice i % (birthCandidates lfs count i).length <
      (birthCandidates lfs count i).length := Nat.mod_lt _ hlen
  show ((birthCandidates lfs count i).getD
    (choice i % (birthCandidates lfs count i).length) default).id ≠ 0
  rw [List.getD_eq_getElem _ _ hidx]
  exact hids _ (List.mem_filter.mp (List.getElem_mem hidx)).1

lemma stepArrays_inv (g : GridState) (count : ℕ → ℕ → ℕ) (choice : ℕ → ℕ)
    (i : ℕ)
    (hids : ∀ lf ∈ g.lifeforms, lf.id ≠ 0)
    (hnd : (g.lifeforms.map (fun lf => lf.id)).Nodup)
    (h1 : g.cells i ≠ 0 → 1 ≤ g.lifespans i)
    (h2 : g.cells i = 0 → g.lifespans i = 0) :
    ((stepArrays g count choice).1 i ≠ 0 →
      1 ≤ (stepArrays g count choice).2 i) ∧
    ((stepArrays g count choice).1 i = 0 →
      (stepArrays g count choice).2 i = 0) := by
  unfold stepArrays
  by_cases hdead : g.cells i = 0
  · have hnm : ∀ lf ∈ g.lifeforms, g.cells i ≠ lf.id := by
      intro lf hlf hc
      exact hids lf hlf (by rw [← hc, hdead])
    obtain ⟨e1, e2⟩ := foldl_pass_not_mem g.cells count i g.lifeforms
      (birthPassCells g count choice, birthPassLifespans g count) hnm
    rw [e1, e2]
    dsimp only
    by_cases hb : 0 < possibleBirth g.lifeforms count g.cells i
    · have hcand := (possibleBirth_pos_imp g.lifeforms count g.cells i hb).2
      have hcb : birthPassCells g count choice i =
          chosenParent g.lifeforms count choice i := by
        unfold birthPassCells
        rw [if_pos hb]
      have hlb : birthPassLifespans g count i = 1 := by
        unfold birthPassLifespans
        rw [if_pos hb]
      rw [hcb, hlb]
      exact ⟨fun _ => le_refl 1,
        fun hc => absurd hc (chosenParent_ne_zero _ _ _ _ hids hcand)⟩
    · have hcb : birthPassCells g count choice i = g.cells i := by
        unfold birthPassCells
        rw [if_neg hb]
      have hlb : birthPassLifespans g count i = g.lifespans i := by
        unfold birthPassLifespans
        rw [if_neg hb]
      rw [hcb, hlb]
      exact ⟨h1, h2⟩
  · have hb0 : possibleBirth g.lifeforms count g.cells i = 0 :=
      possibleBirth_eq_zero_of_alive _ _ _ _ hdead
    have hcb : birthPassCells g count choice i = g.cells i := by
      unfold birthPassCells
      rw [if_neg (by omega)]
    have hlb : birthPassLifespans g count i = g.lifespans i := by
      unfold birthPassLifespans
      rw [if_neg (by omega)]
    by_cases hex : ∃ lf ∈ g.lifeforms, g.cells i = lf.id
    · obtain ⟨lf, hlf, hid⟩ := hex
      have hspec := foldl_pass_alive g.cells count i g.lifeforms
        (birthPassCells g count choice, birthPassLifespans g count) lf hlf
        hid hnd
      by_cases hs : count lf.id i ∈ lf.survival_rules
      · obtain ⟨r1, r2⟩ := hspec.1 hs
        rw [r1, r2]
        dsimp only
        rw [hcb, hlb]
        exact ⟨fun _ => by omega, fun hc => absurd hc hdead⟩
      · obtain ⟨r1, r2⟩ := hspec.2 hs
        rw [r1, r2]
        exact ⟨fun hc => absurd rfl hc, fun _ => rfl⟩
    · push_neg at hex
      obtain ⟨e1, e2⟩ := foldl_pass_not_mem g.cells count i g.lifeforms
        (birthPassCells g count choice, birthPassLifespans g count) hex
      rw [e1, e2]
      dsimp only
      rw [hcb, hlb]
      exact ⟨h1, h2⟩

lemma createGrid_invariant (w h : ℕ) (p : ℚ) (lfs : List Lifeform)
    (aliveIdx : List ℕ) (sc : ℕ → ℕ)
    (hids : ∀ lf ∈ lfs, lf.id ≠ 0) :
    GridInvariant (createGrid w h p lfs aliveIdx sc) := by
  intro i _
  unfold createGrid
  by_cases hA : 0 < numAliveCells w h p ∧ lfs ≠ []
  · rw [if_pos hA]
    dsimp only
    by_cases hm : i ∈ aliveIdx
    · rw [if_pos hm, if_pos hm]
      exact ⟨fun _ => le_refl 1,
        fun hc => absurd hc (assignedId_ne_zero lfs sc _ hA.2 hids)⟩
    · rw [if_neg hm, if_neg hm]
      exact ⟨fun hc => absurd rfl hc, fun _ => rfl⟩
  · rw [if_neg hA]
    by_cases hB : 0 < numAliveCells w h p
    · rw [if_pos hB]
      dsimp only
      by_cases hm : i ∈ aliveIdx
      · rw [if_pos hm]
        exact ⟨fun _ => le_refl 1, fun hc => absurd hc one_ne_zero⟩
      · rw [if_neg hm]
        exact ⟨fun hc => absurd rfl hc, fun _ => rfl⟩
    · rw [if_neg hB]
      exact ⟨fun hc => absurd rfl hc, fun _ => rfl⟩

lemma handleClick_invariant (g : GridState) (gx gy : ℤ) (r : ℕ)
    (hids : ∀ lf ∈ g.lifeforms, lf.id ≠ 0)
    (hinv : GridInvariant g) :
    GridInvariant (handleClick g gx gy r) := by
  unfold handleClick
  by_cases hin : 0 ≤ gy ∧ gy < (g.height : ℤ) ∧ 0 ≤ gx ∧ gx < (g.width : ℤ)
  · rw [if_pos hin]
    dsimp only
    by_cases halive : 0 < g.cells (gy.toNat * g.width + gx.toNat)
    · rw [if_pos halive]
      intro i hi
      by_cases heq : i = gy.toNat * g.width + gx.toNat
      · simp [setAt, heq]
      · simp only [setAt, if_neg heq]
        exact hinv i hi
    · rw [if_neg halive]
      by_cases hne : g.lifeforms ≠ []
      · rw [if_pos hne]
        intro i hi
        dsimp only
        by_cases heq : i = gy.toNat * g.width + gx.toNat
        · have hc1 : setAt g.cells (gy.toNat * g.width + gx.toNat)
              (g.lifeforms.getD (r % g.lifeforms.length) default).id i =
              (g.lifeforms.getD (r % g.lifeforms.length) default).id := by
            simp [setAt, heq]
          have hc2 : setAt g.lifespans (gy.toNat * g.width + gx.toNat) 1 i
              = 1 := by
            simp [setAt, heq]
          rw [hc1, hc2]
          have hlen : 0 < g.lifeforms.length := List.length_pos.mpr hne
          have hidx : r % g.lifeforms.length < g.lifeforms.length :=
            Nat.mod_lt _ hlen
          refine ⟨fun _ => le_refl 1, fun hc => absurd hc ?_⟩
          rw [List.getD_eq_getElem _ _ hidx]
          exact hids _ (List.getElem_mem hidx)
        · simp only [setAt, if_neg heq]
          exact hinv i hi
      · rw [if_neg hne]
        intro i hi
        by_cases heq : i = gy.toNat * g.width + gx.toNat
        · simp [setAt, heq]
        · simp only [setAt, if_neg heq]
          exact hinv i hi
  · rw [if_neg hin]
    exact hinv

lemma squareReachable_lifeforms (lfs : List Lifeform) (g : GridState)
    (h : SquareReachable lfs g) : g.lifeforms = lfs := by
  induction h with
  | init w h p aliveIdx sc =>
    unfold createGrid
    split_ifs <;> rfl
  | step g choice hg ih => exact ih
  | toggle g gx gy r hg ih =>
    unfold handleClick
    by_cases hin : 0 ≤ gy ∧ gy < (g.height : ℤ) ∧ 0 ≤ gx ∧ gx < (g.width : ℤ)
    · rw [if_pos hin]
      dsimp only
      split_ifs <;> exact ih
    · rw [if_neg hin]
      exact ih

/-- **C3.** The grid invariant (`cells[i] != 0 ⇒ lifespan[i] >= 1` and
`cells[i] == 0 ⇒ lifespan[i] == 0`) holds in every square-grid state
reachable by seeding, stepping and toggling, for any session whose species
carry distinct non-zero ids (the application always uses ids 1..10). -/
theorem square_grid_invariant (lfs : List Lifeform) (g : GridState)
    (hr : SquareReachable lfs g)
    (hids : ∀ lf ∈ lfs, lf.id ≠ 0)
    (hnd : (lfs.map (fun lf => lf.id)).Nodup) :
    GridInvariant g := by
  induction hr with
  | init w h p aliveIdx sc => exact createGrid_invariant w h p lfs aliveIdx sc hids
  | step g choice hg ih =>
    have hlf : g.lifeforms = lfs := squareReachable_lifeforms lfs g hg
    intro i hi
    have hold := ih i hi
    exact stepArrays_inv g (squareNeighborCount g) choice i
      (by rw [hlf]; exact hids) (by rw [hlf]; exact hnd) hold.1 hold.2
  | toggle g gx gy r hg ih =>
    have hlf : g.lifeforms = lfs := squareReachable_lifeforms lfs g hg
    exact handleClick_invariant g gx gy r (by rw [hlf]; exact hids) ih

/-- **C3 witness.** The invariant at a concrete reachable state: seed a
3×3 grid with one species at fraction 1, then toggle cell (1, 1) and step
once. -/
theorem square_grid_invariant_witness :
    GridInvariant (squareUpdate
      (handleClick (createGrid 3 3 1 [⟨1, [3], [2, 3]⟩]
        [0, 1, 2, 3, 4, 5, 6, 7, 8] (fun _ => 0)) 1 1 0)
      (fun _ => 0)).1 :=
  square_grid_invariant [⟨1, [3], [2, 3]⟩] _
    (SquareReachable.step _ _ (SquareReachable.toggle _ _ _ _
      (SquareReachable.init 3 3 1 [0, 1, 2, 3, 4, 5, 6, 7, 8] (fun _ => 0))))
    (by decide) (by decide)

lemma tsRun_succ {G : Type} (upd : G → G) (alive : G → ℕ) (total steps : ℕ)
    (frac eps : ℚ) (window : ℕ) (g0 : G) (k : ℕ) :
    tsRun upd alive total steps frac eps window g0 (k + 1) =
      tsStep upd alive total (tsBurnIn steps frac) eps window
        (tsRun upd alive total steps frac eps window g0 k) k := by
  unfold tsRun
  rw [List.range_succ, List.foldl_append, List.foldl_cons, List.foldl_nil]

lemma tsStep_frozen_persist {G : Type} (upd : G → G) (alive : G → ℕ)
    (total burn_in : ℕ) (eps : ℚ) (window : ℕ) (s : TsState G) (step v : ℕ)
    (h : s.frozen_at = some v) :
    (tsStep upd alive total burn_in eps window s step).frozen_at = some v := by
  unfold tsStep
  dsimp only
  split_ifs with h1 h2 h3
  · rw [h] at h3
    exact absurd h3.2 (by simp)
  · exact h
  · exact h
  · exact h

lemma tsRun_frozen_persist {G : Type} (upd : G → G) (alive : G → ℕ)
    (total steps : ℕ) (frac eps : ℚ) (window : ℕ) (g0 : G) (k m v : ℕ)
    (hkm : k ≤ m)
    (h : (tsRun upd alive total steps frac eps window g0 k).frozen_at
      = some v) :
    (tsRun upd alive total steps frac eps window g0 m).frozen_at = some v := by
  induction m with
  | zero =>
    have : k = 0 := by omega
    subst this
    exact h
  | succ m ih =>
    by_cases hk : k ≤ m
    · rw [tsRun_succ]
      exact tsStep_frozen_persist _ _ _ _ _ _ _ _ _ (ih hk)
    · have : k = m + 1 := by omega
      subst this
      exact h

lemma tsRun_freeze_invariant {G : Type} (upd : G → G) (alive : G → ℕ)
    (total steps : ℕ) (frac eps : ℚ) (window : ℕ) (g0 : G) (k : ℕ) :
    (tsRun upd alive total steps frac eps window g0 k).quiet_streak ≤ k ∧
    (0 < (tsRun upd alive total steps frac eps window g0 k).quiet_streak →
      tsBurnIn steps frac +
        (tsRun upd alive total steps frac eps window g0 k).quiet_streak ≤ k) ∧
    (∀ t, (tsRun upd alive total steps frac eps window g0 k).frozen_at
        = some t →
      tsBurnIn steps frac ≤ t ∧ tsBurnIn steps frac + window ≤ t + 1 ∧
        t < k) := by
  induction k with
  | zero =>
    refine ⟨le_refl 0, fun h => absurd h (by simp [tsRun]), fun t ht => ?_⟩
    exact absurd ht (by simp [tsRun])
  | succ k ih =>
    obtain ⟨ih1, ih2, ih3⟩ := ih
    rw [tsRun_succ]
    unfold tsStep
    dsimp only
    split_ifs with h1 h2 h3
    all_goals dsimp only
    · -- step k > 0, quiet at or after burn-in, freeze fires
      refine ⟨by omega, fun _ => ?_, fun t ht => ?_⟩
      · rcases Nat.eq_zero_or_pos
          (tsRun upd alive total steps frac eps window g0 k).quiet_streak with
          h0 | hpos
        · rw [h0]
          omega
        · have := ih2 hpos
          omega
      · have ht' : t = k := by
          simpa using ht.symm
        rw [ht']
        have hqs : window ≤
            (tsRun upd alive total steps frac eps window g0 k).quiet_streak
              + 1 := h3.1
        rcases Nat.eq_zero_or_pos
          (tsRun upd alive total steps frac eps window g0 k).quiet_streak with
          h0 | hpos
        · rw [h0] at hqs
          exact ⟨h2.1, by omega, by omega⟩
        · have := ih2 hpos
          exact ⟨h2.1, by omega, by omega⟩
    · -- step k > 0, quiet, but freeze does not fire (already frozen or
      -- streak below the window)
      refine ⟨by omega, fun _ => ?_, fun t ht => ?_⟩
      · rcases Nat.eq_zero_or_pos
          (tsRun upd alive total steps frac eps window g0 k).quiet_streak with
          h0 | hpos
        · rw [h0]
          omega
        · have := ih2 hpos
          omega
      · have := ih3 t ht
        exact ⟨this.1, this.2.1, by omega⟩
    · -- step k > 0, not quiet: streak resets
      refine ⟨by omega, by omega, fun t ht => ?_⟩
      have := ih3 t ht
      exact ⟨this.1, this.2.1, by omega⟩
    · -- step k = 0: nothing recorded
      refine ⟨by omega, fun h => ?_, fun t ht => ?_⟩
      · have := ih2 h
        omega
      · have := ih3 t ht
        exact ⟨this.1, this.2.1, by omega⟩

/-- **C8.** In the `run_timeseries` loop: (1) `frozen_at`, once set, never
changes for the remainder of the run; (2) if the run ends with
`frozen_at = some t`, then `t` lies at or after
`burn_in = floor(steps * burn_in_frac)` and in fact
`burn_in + freeze_window - 1 ≤ t`, because only steps at or after
`burn_in` with `activity <= epsilon` are counted by the streak, and
`frozen_at` is set exactly when the streak first reaches
`freeze_window`. -/
theorem run_timeseries_freeze {G : Type} (upd : G → G) (alive : G → ℕ)
    (total steps : ℕ) (frac eps : ℚ) (window : ℕ) (g0 : G) :
    (∀ k m v, k ≤ m →
      (tsRun upd alive total steps frac eps window g0 k).frozen_at = some v →
      (tsRun upd alive total steps frac eps window g0 m).frozen_at
        = some v) ∧
    (∀ t, (tsRun upd alive total steps frac eps window g0 steps).frozen_at
        = some t →
      tsBurnIn steps frac ≤ t ∧
        tsBurnIn steps frac + window - 1 ≤ t ∧ t < steps) := by
  constructor
  · intro k m v hkm h
    exact tsRun_frozen_persist upd alive total steps frac eps window g0
      k m v hkm h
  · intro t ht
    have := (tsRun_freeze_invariant upd alive total steps frac eps window
      g0 steps).2.2 t ht
    exact ⟨this.1, by omega, this.2.2⟩

/-- **C8 witness.** A concrete 3-step constant run (one cell, always-zero
alive count, `burn_in_frac = 0`, `epsilon = 0`, `freeze_window = 1`)
freezes at step 1; by persistence the final state still records
`frozen_at = 1`, and the freeze-index bounds hold there. -/
theorem run_timeseries_freeze_witness :
    (tsRun (fun x : Unit => x) (fun _ => 0) 1 3 0 0 1 () 3).frozen_at
      = some 1 ∧
    tsBurnIn 3 0 ≤ 1 ∧ tsBurnIn 3 0 + 1 - 1 ≤ 1 ∧ 1 < 3 := by
  have h2 : (tsRun (fun x : Unit => x) (fun _ => 0) 1 3 0 0 1 () 2).frozen_at
      = some 1 := by
    norm_num [tsRun, tsStep, tsBurnIn, List.range_succ]
  have h3 := (run_timeseries_freeze (fun x : Unit => x) (fun _ => 0)
    1 3 0 0 1 ()).1 2 3 1 (by omega) h2
  exact ⟨h3, (run_timeseries_freeze (fun x : Unit => x) (fun _ => 0)
    1 3 0 0 1 ()).2 1 h3⟩

lemma chosenParent_singleton (lf : Lifeform) (count : ℕ → ℕ → ℕ)
    (c1 c2 : ℕ → ℕ) (i : ℕ) :
    chosenParent [lf] count c1 i = chosenParent [lf] count c2 i := by
  have hcand : birthCandidates [lf] count i = [] ∨
      birthCandidates [lf] count i = [lf] := by
    unfold birthCandidates
    by_cases hc : count lf.id i ∈ lf.birth_rules
    · right; simp [hc]
    · left; simp [hc]
  rcases hcand with hc | hc
  · unfold chosenParent
    rw [hc]
    simp
  · unfold chosenParent
    rw [hc]
    simp [Nat.mod_one]

lemma stepArrays_singleton (g : GridState) (count : ℕ → ℕ → ℕ)
    (c1 c2 : ℕ → ℕ) (lf : Lifeform) (h : g.lifeforms = [lf]) :
    stepArrays g count c1 = stepArrays g count c2 := by
  unfold stepArrays
  have hb : birthPassCells g count c1 = birthPassCells g count c2 := by
    funext i
    unfold birthPassCells
    by_cases hp : 0 < possibleBirth g.lifeforms count g.cells i
    · rw [if_pos hp, if_pos hp, h]
      exact chosenParent_singleton lf count c1 c2 i
    · rw [if_neg hp, if_neg hp]
  rw [hb]

lemma squareUpdate_choice_irrelevant (g : GridState) (c1 c2 : ℕ → ℕ)
    (lf : Lifeform) (h : g.lifeforms = [lf]) :
    (squareUpdate g c1).1 = (squareUpdate g c2).1 := by
  have h2 := stepArrays_singleton g (squareNeighborCount g) c1 c2 lf h
  unfold squareUpdate
  dsimp only
  rw [h2]

lemma denseUpdate_choice_irrelevant (nbr : ℕ → List ℤ) (g : GridState)
    (c1 c2 : ℕ → ℕ) (lf : Lifeform) (h : g.lifeforms = [lf]) :
    (denseUpdate nbr g c1).1 = (denseUpdate nbr g c2).1 := by
  have h2 := stepArrays_singleton g (denseNeighborCount g.size g.cells nbr)
    c1 c2 lf h
  unfold denseUpdate
  dsimp only
  rw [h2]

lemma updateFor_choice_irrelevant (shape : Shape) (wrap : Bool)
    (triNbr : ℕ → List ℤ) (g : GridState) (c1 c2 : ℕ → ℕ)
    (lf : Lifeform) (h : g.lifeforms = [lf]) :
    (updateFor shape wrap triNbr g c1).1 = (updateFor shape wrap triNbr g c2).1 := by
  cases shape with
  | square => exact squareUpdate_choice_irrelevant g c1 c2 lf h
  | hexagon => exact denseUpdate_choice_irrelevant _ g c1 c2 lf h
  | triangle => exact denseUpdate_choice_irrelevant _ g c1 c2 lf h

lemma updateFor_lifeforms (shape : Shape) (wrap : Bool)
    (triNbr : ℕ → List ℤ) (g : GridState) (c : ℕ → ℕ) :
    (updateFor shape wrap triNbr g c).1.lifeforms = g.lifeforms := by
  cases shape <;> rfl

lemma createGrid_lifeforms (w h : ℕ) (p : ℚ) (lfs : List Lifeform)
    (aliveIdx : List ℕ) (sc : ℕ → ℕ) :
    (createGrid w h p lfs aliveIdx sc).lifeforms = lfs := by
  unfold createGrid
  split_ifs <;> rfl

lemma lockstepPair_eq_of_eq_start (upd : GridState → (ℕ → ℕ) → GridState × StepResult)
    (a0 : GridState) (rngA rngB : ℕ → ℕ → ℕ)
    (hpres : ∀ g c, (upd g c).1.lifeforms = g.lifeforms)
    (hud : ∀ g c1 c2, g.lifeforms = a0.lifeforms →
      (upd g c1).1 = (upd g c2).1) :
    ∀ t, (lockstepPair upd a0 a0 rngA rngB t).1 =
        (lockstepPair upd a0 a0 rngA rngB t).2 ∧
      (lockstepPair upd a0 a0 rngA rngB t).1.lifeforms = a0.lifeforms := by
  intro t
  induction t with
  | zero => exact ⟨rfl, rfl⟩
  | succ t ih =>
    refine ⟨?_, ?_⟩
    · show (upd (lockstepPair upd a0 a0 rngA rngB t).1 (rngA t)).1 =
        (upd (lockstepPair upd a0 a0 rngA rngB t).2 (rngB t)).1
      rw [← ih.1]
      exact hud _ _ _ ih.2
    · show (upd (lockstepPair upd a0 a0 rngA rngB t).1 (rngA t)).1.lifeforms
        = a0.lifeforms
      rw [hpres]
      exact ih.2

lemma hammingFrac_self (size : ℕ) (a : GridState) :
    hammingFrac size a a = 0 := by
  unfold hammingFrac
  have h0 : (List.range size).countP (fun i => ¬ a.cells i = a.cells i) = 0 := by
    rw [List.countP_eq_zero]
    intro x _
    simp
  rw [h0]
  norm_num

/-- **C9.** `run_damage_spreading` with `flip_cells = 0`: no cell of the
copy is perturbed, the two single-species grids start identical and stay
identical under lockstep updates (with one lifeform the birth tie-break
drawn from the shared RNG cannot influence the outcome), so `H[t] = 0` at
every recorded time `t = 0, ..., steps-1`. -/
theorem damage_spreading_zero_flips (shape : Shape) (wrap : Bool)
    (triNbr : ℕ → List ℤ) (rule : Rule) (steps : ℕ) (p0 : ℚ) (w h : ℕ)
    (aliveIdx : List ℕ) (sc : ℕ → ℕ) (flipOracle : List ℕ)
    (rngA rngB : ℕ → ℕ → ℕ)
    (hsteps : 1 ≤ steps) (hsz : 0 < w * h) :
    runDamageSpreading shape wrap triNbr rule steps p0 w h 0 aliveIdx sc
      flipOracle rngA rngB = List.replicate steps (0 : ℚ) := by
  unfold runDamageSpreading
  dsimp only
  simp only [Nat.zero_min, List.take_zero, List.foldl_nil]
  have hpair := lockstepPair_eq_of_eq_start
    (updateFor shape wrap triNbr)
    (makeGrid w h p0 [⟨1, rule.birth.sort (· ≤ ·), rule.survive.sort (· ≤ ·)⟩]
      aliveIdx sc)
    rngA rngB
    (fun g c => updateFor_lifeforms shape wrap triNbr g c)
    (fun g c1 c2 hg => updateFor_choice_irrelevant shape wrap triNbr g c1 c2
      ⟨1, rule.birth.sort (· ≤ ·), rule.survive.sort (· ≤ ·)⟩
      (by rw [hg]; exact createGrid_lifeforms _ _ _ _ _ _))
  refine List.eq_replicate_iff.mpr ⟨by simp, ?_⟩
  intro b hb
  obtain ⟨t, _, hbt⟩ := List.mem_map.mp hb
  rw [← hbt, (hpair t).1]
  exact hammingFrac_self _ _

/-- **C9 witness.** The identity instantiated at a concrete run: square
lattice, 1×1 grid, empty rule, one recorded step. -/
theorem damage_spreading_zero_flips_witness :
    runDamageSpreading Shape.square true (fun _ => []) ⟨∅, ∅⟩ 1 0 1 1 0 []
      (fun _ => 0) [] (fun _ _ => 0) (fun _ _ => 0) =
      List.replicate 1 (0 : ℚ) :=
  damage_spreading_zero_flips Shape.square true (fun _ => []) ⟨∅, ∅⟩ 1 0 1 1
    [] (fun _ => 0) [] (fun _ _ => 0) (fun _ _ => 0) (by decide) (by decide)

end GameOfLife
